import Mathlib

/-!
Shallow embedding of the forward proxy in `src/src/main.rs` (hyper-based,
Basic proxy authentication, CONNECT tunnelling).  Rust strings are modelled
as Lean `String`/`List Char`; raw byte payloads (base64 output) as `List Nat`
with each element `< 256`.  Fallible operations return `Option`/`Except`.
-/

namespace Proxy

/-- ASCII-lowercase a character, as Rust's `eq_ignore_ascii_case` does
byte-wise (only `A`-`Z` are mapped; all other characters are unchanged). -/
def asciiLowerChar (c : Char) : Char :=
  if 'A' ≤ c ∧ c ≤ 'Z' then Char.ofNat (c.toNat + 32) else c

/-- Rust `str::eq_ignore_ascii_case`: equality after ASCII lowercasing. -/
def eq_ignore_ascii_case (a b : String) : Bool :=
  a.data.map asciiLowerChar == b.data.map asciiLowerChar

/-- Whitespace as seen by `split_whitespace` on a header value.  Rust splits
on Unicode whitespace, but `HeaderValue::to_str` only succeeds on visible
ASCII plus tab, so space and tab are the only whitespace characters that can
occur in a header value that reaches the split. -/
def isHeaderWs (c : Char) : Bool :=
  c == ' ' || c == '\t'

/-- Helper for `split_whitespace`: `acc` is the current word, reversed. -/
def splitWsAux : List Char → List Char → List String
  | [], acc => if acc.isEmpty then [] else [String.mk acc.reverse]
  | c :: cs, acc =>
    if isHeaderWs c then
      if acc.isEmpty then splitWsAux cs []
      else String.mk acc.reverse :: splitWsAux cs []
    else splitWsAux cs (c :: acc)

/-- Rust `str::split_whitespace().collect()` (restricted to header text,
see `isHeaderWs`): the maximal non-whitespace runs, in order. -/
def split_whitespace (s : String) : List String :=
  splitWsAux s.data []

/-- Value of a character in the RFC 4648 standard base64 alphabet used by
`base64::engine::general_purpose::STANDARD`. -/
def b64Index (c : Char) : Option Nat :=
  if 'A' ≤ c ∧ c ≤ 'Z' then some (c.toNat - 65)
  else if 'a' ≤ c ∧ c ≤ 'z' then some (c.toNat - 97 + 26)
  else if '0' ≤ c ∧ c ≤ '9' then some (c.toNat - 48 + 52)
  else if c = '+' then some 62
  else if c = '/' then some 63
  else none

/-- Decode loop for canonical standard base64: the input is consumed in
groups of four symbols; `=` padding is allowed only at the end of the final
group (one or two pads), and the unused trailing bits of the final symbol
must be zero, matching the `STANDARD` engine's strict configuration
(canonical padding required, trailing garbage bits rejected). -/
def b64DecodeAux : List Char → Option (List Nat)
  | [] => some []
  | c0 :: c1 :: c2 :: c3 :: rest =>
    match b64Index c0, b64Index c1 with
    | some v0, some v1 =>
      if c2 = '=' then
        if c3 = '=' ∧ rest = [] then
          if v1 % 16 = 0 then some [v0 * 4 + v1 / 16] else none
        else none
      else
        match b64Index c2 with
        | some v2 =>
          if c3 = '=' then
            if rest = [] then
              if v2 % 4 = 0 then
                some [v0 * 4 + v1 / 16, v1 % 16 * 16 + v2 / 4]
              else none
            else none
          else
            match b64Index c3 with
            | some v3 =>
              (b64DecodeAux rest).map
                (fun bs =>
                  (v0 * 4 + v1 / 16) :: (v1 % 16 * 16 + v2 / 4) ::
                    (v2 % 4 * 64 + v3) :: bs)
            | none => none
        | none => none
    | _, _ => none
  | _ => none

/-- `BASE64.decode` (the `STANDARD` engine of the `base64` crate): bytes of
the decoded payload, or `none` on any invalid symbol, non-canonical padding,
wrong length, or non-zero trailing bits. -/
def base64_decode (s : String) : Option (List Nat) :=
  b64DecodeAux s.data

/-- Is `b` a UTF-8 continuation byte (`0x80`-`0xBF`)? -/
def isCont (b : Nat) : Bool :=
  128 ≤ b && b ≤ 191

/-- Rust `String::from_utf8`: decode a byte sequence as UTF-8, rejecting
overlong encodings, surrogates and out-of-range code points exactly as the
UTF-8 grammar does; returns the character sequence of the decoded string. -/
def utf8_decode : List Nat → Option (List Char)
  | [] => some []
  | b0 :: bs =>
    if b0 < 128 then
      (utf8_decode bs).map (fun cs => Char.ofNat b0 :: cs)
    else if b0 < 194 then none
    else if b0 ≤ 223 then
      match bs with
      | b1 :: bs2 =>
        if isCont b1 then
          (utf8_decode bs2).map
            (fun cs => Char.ofNat ((b0 - 192) * 64 + (b1 - 128)) :: cs)
        else none
      | [] => none
    else if b0 ≤ 239 then
      match bs with
      | b1 :: b2 :: bs2 =>
        let lowGood : Bool :=
          if b0 = 224 then 160 ≤ b1 && b1 ≤ 191
          else if b0 = 237 then 128 ≤ b1 && b1 ≤ 159
          else isCont b1
        if lowGood && isCont b2 then
          (utf8_decode bs2).map
            (fun cs =>
              Char.ofNat ((b0 - 224) * 4096 + (b1 - 128) * 64 + (b2 - 128))
                :: cs)
        else none
      | _ => none
    else if b0 ≤ 244 then
      match bs with
      | b1 :: b2 :: b3 :: bs2 =>
        let lowGood : Bool :=
          if b0 = 240 then 144 ≤ b1 && b1 ≤ 191
          else if b0 = 244 then 128 ≤ b1 && b1 ≤ 143
          else isCont b1
        if lowGood && isCont b2 && isCont b3 then
          (utf8_decode bs2).map
            (fun cs =>
              Char.ofNat
                ((b0 - 240) * 262144 + (b1 - 128) * 4096 +
                  (b2 - 128) * 64 + (b3 - 128)) :: cs)
        else none
      | _ => none
    else none

/-- Rust `str::split_once(':')` at the `List Char` level: split at the first
colon, returning the parts before and after it. -/
def splitOnceColon : List Char → Option (List Char × List Char)
  | [] => none
  | c :: cs =>
    if c = ':' then some ([], cs)
    else (splitOnceColon cs).map (fun up => (c :: up.1, up.2))

/-- `HashMap::get` on the `users` table (`username -> password`), modelled
as lookup in an association list with distinct keys (TOML tables cannot
repeat a key). -/
def lookup_user : List (String × String) → String → Option String
  | [], _ => none
  | (u, p) :: rest, q => if u = q then some p else lookup_user rest q

/-- `Config::is_valid_basic` (src/src/main.rs lines 42-80).  The header
argument is the `Proxy-Authorization` header as text: `none` stands both for
an absent header and for one whose bytes fail `HeaderValue::to_str` (both
take the same `false` path in the source).  The value is split on
whitespace; authentication succeeds iff that yields exactly two tokens, the
first equal to `Basic` ignoring ASCII case, the second canonical base64
decoding to UTF-8 text, that text splits at its first colon into
`user`/`pass`, `user` is a key of the table, and the stored password equals
`pass` exactly. -/
def is_valid_basic (users : List (String × String)) (header : Option String) :
    Bool :=
  match header with
  | none => false
  | some v =>
    match split_whitespace v with
    | [scheme, payload] =>
      if eq_ignore_ascii_case scheme "Basic" then
        match base64_decode payload with
        | some decoded =>
          match utf8_decode decoded with
          | some creds =>
            match splitOnceColon creds with
            | some (user, pass) =>
              match lookup_user users (String.mk user) with
              | some stored => stored == String.mk pass
              | none => false
            | none => false
          | none => false
        | none => false
      else false
    | _ => false

/-- Claim C1 rendered literally, for comparison with `is_valid_basic`:
the header must be exactly `Basic <base64>` (the literal scheme word, one
space), and the decoded text must contain exactly one `:`.  The remaining
conditions (configured username, exact password match) are as in the
source. -/
def spec_basic_admits (users : List (String × String))
    (header : Option String) : Bool :=
  match header with
  | none => false
  | some v =>
    match v.data with
    | 'B' :: 'a' :: 's' :: 'i' :: 'c' :: ' ' :: payload =>
      match base64_decode (String.mk payload) with
      | some decoded =>
        match utf8_decode decoded with
        | some creds =>
          if creds.count ':' = 1 then
            match splitOnceColon creds with
            | some (user, pass) =>
              match lookup_user users (String.mk user) with
              | some stored => stored == String.mk pass
              | none => false
            | none => false
          else false
        | none => false
      | none => false
    | _ => false

/-- An HTTP response: status, headers, body.  `hyper::Body` payloads are
modelled by their text; `Body::empty()` is the empty string. -/
structure Response where
  status : Nat
  headers : List (String × String)
  body : String
deriving DecidableEq

/-- `unauthorized_response` (src/src/main.rs lines 83-90): 407 with the
`Proxy-Authenticate` challenge. -/
def unauthorized_response : Response :=
  ⟨407, [("Proxy-Authenticate", "Basic realm=\"Secure Proxy\"")],
    "Proxy authentication required"⟩

/-- An incoming request as the handlers consume it: method, URI path, the
full URI rendered as a string (`req.uri().to_string()`), and the
`Proxy-Authorization` header (as text; `none` for absent or non-text). -/
structure Request where
  method : String
  path : String
  uri : String
  proxy_authorization : Option String

/-- Oracle for the network effects one request can trigger: the result of
`Client::request` (`Except` mirrors `hyper::Error` as a message), whether
the CONNECT upgrade succeeds, and whether the outbound dial succeeds. -/
structure Net where
  http_result : Except String Response
  upgrade_ok : Bool
  dial_ok : Bool

/-- Observable events of one request, in temporal order: the response line
sent to the client, the outbound dial made by `Client::request`, the
CONNECT upgrade completing, an outbound dial attempt by `tunnel`, and the
bidirectional relay starting. -/
inductive Ev where
  | respond (status : Nat)
  | http_dial
  | upgraded
  | dial (target : String)
  | relay
deriving DecidableEq

/-- Does the string contain `pat` as a contiguous substring
(Rust `str::contains(&str)`)? -/
def substrAt : List Char → List Char → Bool
  | [], pat => pat.isEmpty
  | l@(_ :: cs), pat => pat.isPrefixOf l || substrAt cs pat

/-- Rust `uri_str.contains("://")` and friends. -/
def contains_substr (s pat : String) : Bool :=
  substrAt s.data pat.data

/-- Rust `target.contains(':')`. -/
def contains_char (s : String) (c : Char) : Bool :=
  s.data.contains c

/-- Scan for the first `://` and take what follows it up to the first `/`,
`?` or `#`. -/
def authorityAfterScheme : List Char → Option (List Char)
  | [] => none
  | ':' :: '/' :: '/' :: rest =>
    some (rest.takeWhile (fun c => ¬(c = '/' ∨ c = '?' ∨ c = '#')))
  | _ :: cs => authorityAfterScheme cs

/-- Model of `uri_str.parse::<hyper::Uri>()` followed by `.authority()`:
the authority component of a URI that has a scheme, or `none` when parsing
fails or no authority is present.  Both `none` cases fall back to the raw
string in the source (lines 155-164), so they are merged here.  This is a
simplified model of the `hyper` dependency (the crate rejects some exotic
inputs this model accepts); the resolver theorems that depend on parser
behaviour are stated for an arbitrary authority extractor. -/
def uri_authority (s : String) : Option String :=
  match authorityAfterScheme s.data with
  | some [] => none
  | some auth => some (String.mk auth)
  | none => none

/-- Target extraction of `handle_connect` (src/src/main.rs lines 150-173),
parameterised by the authority extractor: if the URI string contains `://`,
extract the authority, falling back to the raw string when that fails; then
append `:443` iff the result contains no colon. -/
def connect_target_with (parse_authority : String → Option String)
    (uri : String) : String :=
  let target :=
    if contains_substr uri "://" then
      match parse_authority uri with
      | some a => a
      | none => uri
    else uri
  if contains_char target ':' then target else target ++ ":443"

/-- Target extraction of `handle_connect` with the concrete URI model. -/
def connect_target (uri : String) : String :=
  connect_target_with uri_authority uri

/-- `handle_http` (src/src/main.rs lines 126-146): one outbound attempt via
`Client::request`; on success the origin response is returned verbatim, on
any transport error a synthesized 500 with body `Proxy error: <err>`.  The
function is total (the Rust handler's error type is `Infallible`). -/
def handle_http (net : Net) : Response × List Ev :=
  match net.http_result with
  | .ok r => (r, [.http_dial, .respond r.status])
  | .error e => (⟨500, [], "Proxy error: " ++ e⟩, [.http_dial, .respond 500])

/-- The task spawned by `handle_connect` (lines 182-194) together with
`tunnel` (lines 203-218): it first awaits the upgrade; on upgrade success
`tunnel` dials the target, and only on dial success does the bidirectional
relay run.  Failures are logged and produce no further events. -/
def tunnel_task (net : Net) (target : String) : List Ev :=
  if net.upgrade_ok then
    .upgraded :: .dial target :: (if net.dial_ok then [.relay] else [])
  else []

/-- `handle_connect` (src/src/main.rs lines 149-200): resolve the target,
spawn the tunnel task, and return `200` with an empty body.  The spawned
task awaits `hyper::upgrade::on`, which resolves only after the response has
been written to the client (taken from the spec, which states this ordering
as mandatory for hyper upgrades), so in the event trace the `respond 200`
precedes every event of the task. -/
def handle_connect (net : Net) (req : Request) : Response × List Ev :=
  let target := connect_target req.uri
  (⟨200, [], ""⟩, .respond 200 :: tunnel_task net target)

/-- `handle_request` (src/src/main.rs lines 93-123): health route first,
then authentication, then dispatch to CONNECT tunnelling or HTTP
forwarding.  Returns the response and the trace of observable events.  The
function is total: the Rust signature's error type is `Infallible`. -/
def handle_request (users : List (String × String)) (net : Net)
    (req : Request) : Response × List Ev :=
  if req.method == "GET" && req.path == "/health" then
    (⟨200, [], "OK"⟩, [.respond 200])
  else if !(is_valid_basic users req.proxy_authorization) then
    (unauthorized_response, [.respond 407])
  else if req.method == "CONNECT" then
    handle_connect net req
  else
    handle_http net

/-- Rust `str::parse::<u16>()`: an optional leading `+`, then one or more
ASCII digits, value at most `65535`; anything else (empty string, other
characters, overflow) fails. -/
def parse_u16 (s : String) : Option Nat :=
  let ds := match s.data with
    | '+' :: rest => rest
    | l => l
  if ds.isEmpty then none
  else if ds.all (fun c => c.isDigit) then
    let n := ds.foldl (fun acc c => acc * 10 + (c.toNat - 48)) 0
    if n < 65536 then some n else none
  else none

/-- Port selection in `main` (src/src/main.rs lines 265-268):
`std::env::var("PORT").ok().and_then(parse).unwrap_or(config.server.port)`.
`env` is the value of the `PORT` environment variable, `cfg` the port from
the configuration file. -/
def effective_port (env : Option String) (cfg : Nat) : Nat :=
  match env with
  | none => cfg
  | some s => (parse_u16 s).getD cfg

/-- The two authentication strategies the spec describes as interchangeable
and selected by configuration. -/
inductive AuthScheme where
  | basic (users : List (String × String))
  | token (tokens : List String)

/-- Modelled from the spec: the token strategy is absent from
src/src/main.rs (which contains only the Basic draft); per the spec it
reads a single custom header and admits iff the header is present, valid
text, and its value equals some value in the credential set.  `none` stands
for a missing header or one that is not valid text.  The Basic arm is the
source's `is_valid_basic`. -/
def authenticate : AuthScheme → Option String → Bool
  | .basic users, header => is_valid_basic users header
  | .token tokens, header =>
    match header with
    | some v => tokens.contains v
    | none => false

/-- Modelled from the spec: the deny response of each strategy.  Token
scheme: status 403, plain-text body `Invalid or missing token`, no
challenge header.  Basic scheme: the source's `unauthorized_response`. -/
def deny_response : AuthScheme → Response
  | .basic _ => unauthorized_response
  | .token _ => ⟨403, [], "Invalid or missing token"⟩

/-! ### Helper lemmas -/

theorem splitOnceColon_eq (l u p : List Char) :
    splitOnceColon l = some (u, p) ↔ l = u ++ ':' :: p ∧ ':' ∉ u := by
  induction l generalizing u with
  | nil =>
    constructor
    · intro h
      rw [show splitOnceColon [] = none from rfl] at h
      exact Option.noConfusion h
    · rintro ⟨h, -⟩; exact absurd h (by simp)
  | cons c cs ih =>
    by_cases hc : c = ':'
    · subst hc
      constructor
      · intro h
        rw [splitOnceColon, if_pos rfl, Option.some_inj] at h
        obtain ⟨rfl, rfl⟩ := Prod.mk.injEq .. ▸ h
        exact ⟨rfl, by simp⟩
      · rintro ⟨heq, hnm⟩
        cases u with
        | nil =>
          simp only [List.nil_append, List.cons.injEq] at heq
          rw [heq.2, splitOnceColon, if_pos rfl]
        | cons a u' =>
          rw [List.cons_append, List.cons.injEq] at heq
          exact absurd (heq.1 ▸ List.mem_cons_self a u') hnm
    · constructor
      · intro h
        rw [splitOnceColon, if_neg hc] at h
        rcases hsp : splitOnceColon cs with _ | ⟨u', p'⟩
        · rw [hsp] at h; simp at h
        · rw [hsp] at h
          simp only [Option.map_some', Option.some_inj] at h
          obtain ⟨hu, hp⟩ := Prod.mk.injEq .. ▸ h
          obtain ⟨htl, hnm'⟩ := (ih u').mp (hp ▸ hsp)
          refine ⟨?_, ?_⟩
          · rw [← hu, htl, List.cons_append]
          · rw [← hu]
            intro hm
            rcases List.mem_cons.mp hm with hm | hm
            · exact hc hm.symm
            · exact hnm' hm
      · rintro ⟨heq, hnm⟩
        cases u with
        | nil =>
          rw [List.nil_append, List.cons.injEq] at heq
          exact absurd heq.1 hc
        | cons a u' =>
          rw [List.cons_append, List.cons.injEq] at heq
          obtain ⟨rfl, htl⟩ := heq
          have hnm' : ':' ∉ u' := fun hm => hnm (List.mem_cons_of_mem _ hm)
          have hrec := (ih u').mpr ⟨htl, hnm'⟩
          rw [splitOnceColon, if_neg hc, hrec]
          rfl

theorem mem_of_substrAt (l : List Char) (c : Char) (cs : List Char)
    (h : substrAt l (c :: cs) = true) : c ∈ l := by
  induction l with
  | nil => simp [substrAt] at h
  | cons d ds ih =>
    rw [substrAt, Bool.or_eq_true] at h
    rcases h with h | h
    · rw [List.isPrefixOf, Bool.and_eq_true, beq_iff_eq] at h
      exact h.1 ▸ List.mem_cons_self d ds
    · exact List.mem_cons_of_mem _ (ih h)

theorem contains_char_colon_of_scheme (s : String)
    (h : contains_substr s "://" = true) : contains_char s ':' = true := by
  rw [contains_substr] at h
  have hpat : ("://" : String).data = ':' :: '/' :: '/' :: [] := rfl
  rw [hpat] at h
  have hm : ':' ∈ s.data := mem_of_substrAt _ _ _ h
  rw [contains_char]
  exact List.elem_eq_true_of_mem hm

/-! ### Claim theorems -/

/-- C1 (as stated) is false on the code: `is_valid_basic` disagrees with the
literal reading of the claim (`spec_basic_admits`).  Three admitted inputs
the claim rejects: a lowercase `basic` scheme word, a credential text
`u:a:b` with two colons (split at the first, password `a:b`), and a header
with extra surrounding whitespace. -/
theorem c1_basic_admission_counterexample :
    (is_valid_basic [("user", "pass")] (some "basic dXNlcjpwYXNz") = true ∧
      spec_basic_admits [("user", "pass")] (some "basic dXNlcjpwYXNz") =
        false) ∧
    (is_valid_basic [("u", "a:b")] (some "Basic dTphOmI=") = true ∧
      spec_basic_admits [("u", "a:b")] (some "Basic dTphOmI=") = false) ∧
    (is_valid_basic [("user", "pass")] (some " Basic  dXNlcjpwYXNz") = true ∧
      spec_basic_admits [("user", "pass")] (some " Basic  dXNlcjpwYXNz") =
        false) := by
  decide

/-- C1 (amended): Basic-scheme admission succeeds iff the header value
splits on whitespace into exactly two tokens, the first equal to `Basic`
ignoring ASCII case, the second valid canonical base64 whose bytes decode as
UTF-8 to a text of the form `user ++ ":" ++ pass` with no colon in `user`
(split at the first colon), `user` is a configured username, and the stored
password equals `pass` exactly (case-sensitive, no hashing, no trimming). -/
theorem c1_basic_admission_iff (users : List (String × String))
    (header : Option String) :
    is_valid_basic users header = true ↔
      ∃ v scheme payload decoded user pass,
        header = some v ∧
        split_whitespace v = [scheme, payload] ∧
        eq_ignore_ascii_case scheme "Basic" = true ∧
        base64_decode payload = some decoded ∧
        utf8_decode decoded = some (user ++ ':' :: pass) ∧
        ':' ∉ user ∧
        lookup_user users (String.mk user) = some (String.mk pass) := by
  cases header with
  | none => simp [is_valid_basic]
  | some v =>
    constructor
    · intro h
      rw [is_valid_basic] at h
      split at h
      rotate_left
      · exact absurd h (by simp)
      rename_i scheme payload hsw
      split at h
      rotate_left
      · exact absurd h (by simp)
      rename_i hig
      split at h
      rotate_left
      · exact absurd h (by simp)
      rename_i decoded hb64
      split at h
      rotate_left
      · exact absurd h (by simp)
      rename_i creds hutf
      split at h
      rotate_left
      · exact absurd h (by simp)
      rename_i user pass hsp
      split at h
      rotate_left
      · exact absurd h (by simp)
      rename_i stored hlk
      rw [beq_iff_eq] at h
      obtain ⟨hcr, hnc⟩ := (splitOnceColon_eq creds user pass).mp hsp
      exact ⟨v, scheme, payload, decoded, user, pass, rfl, hsw, hig, hb64,
        hcr ▸ hutf, hnc, h ▸ hlk⟩
    · rintro ⟨v', scheme, payload, decoded, user, pass, hv, hsw, hig, hb64,
        hutf, hnc, hlk⟩
      cases hv
      have hsp : splitOnceColon (user ++ ':' :: pass) = some (user, pass) :=
        (splitOnceColon_eq _ _ _).mpr ⟨rfl, hnc⟩
      simp [is_valid_basic, hsw, hig, hb64, hutf, hsp, hlk]

/-- Helper: the health-route condition of `handle_request` is false for any
request that is not a GET of `/health`. -/
theorem health_cond_eq_false (req : Request)
    (hh : req.method = "GET" → req.path ≠ "/health") :
    (req.method == "GET" && req.path == "/health") = false := by
  cases hb : (req.method == "GET" && req.path == "/health")
  · rfl
  · rw [Bool.and_eq_true, beq_iff_eq, beq_iff_eq] at hb
    exact absurd hb.2 (hh hb.1)

/-- Helper: any non-health request that fails `is_valid_basic` is answered
with `unauthorized_response` and a trace holding only that response. -/
theorem handle_request_denied (users : List (String × String)) (net : Net)
    (req : Request) (hh : req.method = "GET" → req.path ≠ "/health")
    (ha : is_valid_basic users req.proxy_authorization = false) :
    handle_request users net req = (unauthorized_response, [.respond 407]) := by
  rw [handle_request, health_cond_eq_false req hh]
  simp [ha]

/-- C2 (as stated) is false on the code: the health route requires method
GET.  A POST to `/health` without credentials is denied with 407, not
answered 200/`OK`. -/
theorem c2_health_counterexample :
    (handle_request [] ⟨.error "e", false, false⟩
        ⟨"POST", "/health", "/health", none⟩).1.status = 407 ∧
    (handle_request [] ⟨.error "e", false, false⟩
        ⟨"POST", "/health", "/health", none⟩).1.body ≠ "OK" := by
  decide

/-- C2 (amended): every GET request for path `/health` is answered 200 with
body `OK` and nothing else, irrespective of credential headers; `/health`
requests with any other method are not exempt from authentication (with
invalid or missing credentials they receive the deny response), so
GET `/health` is the only route that bypasses authentication. -/
theorem c2_health_route (users : List (String × String)) (net : Net)
    (req : Request) :
    (req.method = "GET" → req.path = "/health" →
      handle_request users net req = (⟨200, [], "OK"⟩, [.respond 200])) ∧
    (req.path = "/health" → req.method ≠ "GET" →
      is_valid_basic users req.proxy_authorization = false →
      (handle_request users net req).1 = unauthorized_response) := by
  constructor
  · intro hm hp
    simp [handle_request, hm, hp]
  · intro hp hm ha
    rw [handle_request_denied users net req (fun hg => absurd hg hm) ha]

/-- Witness for C2: the GET health request and a POST health request,
evaluated concretely. -/
theorem c2_health_route_witness :
    handle_request [] ⟨.error "e", false, false⟩
        ⟨"GET", "/health", "/health", none⟩ =
      (⟨200, [], "OK"⟩, [.respond 200]) ∧
    (handle_request [] ⟨.error "e", false, false⟩
        ⟨"POST", "/health", "/health", none⟩).1 = unauthorized_response :=
  ⟨(c2_health_route [] ⟨.error "e", false, false⟩
      ⟨"GET", "/health", "/health", none⟩).1 rfl rfl,
   (c2_health_route [] ⟨.error "e", false, false⟩
      ⟨"POST", "/health", "/health", none⟩).2 rfl (by decide) (by decide)⟩

/-- C5: a non-health request failing authentication is answered immediately
with the deny response; its trace contains no outbound dial, no HTTP
forwarding attempt, no upgrade and no relay — neither `handle_http` nor
`handle_connect` is reached. -/
theorem c5_denied_no_outbound (users : List (String × String)) (net : Net)
    (req : Request) (hh : req.method = "GET" → req.path ≠ "/health")
    (ha : is_valid_basic users req.proxy_authorization = false) :
    handle_request users net req = (unauthorized_response, [.respond 407]) ∧
    (∀ t, Ev.dial t ∉ (handle_request users net req).2) ∧
    Ev.http_dial ∉ (handle_request users net req).2 ∧
    Ev.upgraded ∉ (handle_request users net req).2 ∧
    Ev.relay ∉ (handle_request users net req).2 := by
  have hmain := handle_request_denied users net req hh ha
  refine ⟨hmain, ?_, ?_, ?_, ?_⟩ <;> simp [hmain]

/-- Witness for C5: a GET for a non-health path with no credentials. -/
theorem c5_denied_no_outbound_witness :
    handle_request [] ⟨.ok ⟨200, [], "x"⟩, true, true⟩
        ⟨"GET", "/x", "http://x/", none⟩ =
      (unauthorized_response, [.respond 407]) :=
  (c5_denied_no_outbound [] ⟨.ok ⟨200, [], "x"⟩, true, true⟩
    ⟨"GET", "/x", "http://x/", none⟩ (fun _ => by decide) (by decide)).1

/-- C6: under the basic scheme every denied request, whatever its method,
receives exactly `unauthorized_response`: status 407, the
`Proxy-Authenticate: Basic realm="Secure Proxy"` challenge, and body
`Proxy authentication required`. -/
theorem c6_basic_denial_shape (users : List (String × String)) (net : Net)
    (req : Request) (hh : req.method = "GET" → req.path ≠ "/health")
    (ha : is_valid_basic users req.proxy_authorization = false) :
    (handle_request users net req).1 = unauthorized_response ∧
    unauthorized_response.status = 407 ∧
    unauthorized_response.headers =
      [("Proxy-Authenticate", "Basic realm=\"Secure Proxy\"")] ∧
    unauthorized_response.body = "Proxy authentication required" := by
  refine ⟨?_, rfl, rfl, rfl⟩
  rw [handle_request_denied users net req hh ha]

/-- Witness for C6: a CONNECT with a wrong-scheme credential header. -/
theorem c6_basic_denial_shape_witness :
    (handle_request [("user", "pass")] ⟨.error "e", true, true⟩
        ⟨"CONNECT", "", "example.com:443", some "Bearer tok"⟩).1 =
      unauthorized_response :=
  (c6_basic_denial_shape [("user", "pass")] ⟨.error "e", true, true⟩
    ⟨"CONNECT", "", "example.com:443", some "Bearer tok"⟩
    (fun h => by exact absurd h (by decide)) (by decide)).1

/-- C3: under the token strategy, a missing header and a header whose value
is not in the credential set are both denied; the deny response is status
403 with plain-text body `Invalid or missing token` and no headers (hence
no challenge header); and the strategy is one of the two interchangeable
arms of `authenticate`, whose other arm is the source's `is_valid_basic`. -/
theorem c3_token_denial (tokens : List String) (header : Option String) :
    (header = none → authenticate (.token tokens) header = false) ∧
    (∀ v, header = some v → tokens.contains v = false →
      authenticate (.token tokens) header = false) ∧
    deny_response (.token tokens) = ⟨403, [], "Invalid or missing token"⟩ ∧
    (∀ users h2, authenticate (.basic users) h2 = is_valid_basic users h2) := by
  refine ⟨?_, ?_, rfl, fun users h2 => rfl⟩
  · rintro rfl; rfl
  · rintro v rfl hc
    have hv : v ∉ tokens := by simpa using hc
    simp [authenticate, hv]

/-- Witness for C3: an absent header and an unknown token value. -/
theorem c3_token_denial_witness :
    authenticate (.token ["secret"]) none = false ∧
    authenticate (.token ["secret"]) (some "wrong") = false :=
  ⟨(c3_token_denial ["secret"] none).1 rfl,
   (c3_token_denial ["secret"] (some "wrong")).2.1 "wrong" rfl (by decide)⟩

/-- C4: the four documented CONNECT resolutions hold, and in general: with a
scheme separator present, a successfully extracted authority is used (with
`:443` appended iff it has no colon), a failed extraction falls back to the
raw string, and without a scheme separator the raw string is used — in every
case `:443` is appended exactly when the chosen string has no colon, and
resolution never fails. -/
theorem c4_connect_resolution :
    connect_target "example.com" = "example.com:443" ∧
    connect_target "example.com:8443" = "example.com:8443" ∧
    connect_target "https://example.com:8443/x" = "example.com:8443" ∧
    connect_target "https://example.com/x" = "example.com:443" ∧
    (∀ (parse : String → Option String) s a,
      contains_substr s "://" = true → parse s = some a →
      connect_target_with parse s =
        if contains_char a ':' then a else a ++ ":443") ∧
    (∀ (parse : String → Option String) s,
      contains_substr s "://" = true → parse s = none →
      connect_target_with parse s =
        if contains_char s ':' then s else s ++ ":443") ∧
    (∀ (parse : String → Option String) s,
      contains_substr s "://" = false →
      connect_target_with parse s =
        if contains_char s ':' then s else s ++ ":443") := by
  refine ⟨by decide, by decide, by decide, by decide, ?_, ?_, ?_⟩
  · intro parse s a h1 h2
    simp [connect_target_with, h1, h2]
  · intro parse s h1 h2
    simp [connect_target_with, h1, h2]
  · intro parse s h1
    simp [connect_target_with, h1]

/-- Witness for C4's generic clauses: a parser that extracts `h`, and one
that fails. -/
theorem c4_connect_resolution_witness :
    connect_target_with (fun _ => some "h") "x://y" = "h:443" ∧
    connect_target_with (fun _ => none) "x://y" = "x://y" := by
  constructor
  · have h := c4_connect_resolution.2.2.2.2.1 (fun _ => some "h") "x://y" "h"
      (by decide) rfl
    rw [h]; decide
  · have h := c4_connect_resolution.2.2.2.2.2.1 (fun _ => none) "x://y"
      (by decide) rfl
    rw [h]; decide

/-- C7: for an authenticated CONNECT request the response is 200 with empty
body; in the session trace the response is the first event, every outbound
dial of the tunnel is preceded by that response, the relay is preceded by
both the completed upgrade and the dial of the resolved target, and the
response does not depend on the tunnel oracle at all (the spawned task is
detached from the request/response cycle).  The position of the response
before the task's events encodes hyper's upgrade contract as the spec
states it (the upgrade future resolves only after the response is sent). -/
theorem c7_connect_ordering (users : List (String × String)) (net : Net)
    (req : Request) (hm : req.method = "CONNECT")
    (ha : is_valid_basic users req.proxy_authorization = true) :
    (handle_request users net req).1 = ⟨200, [], ""⟩ ∧
    (handle_request users net req).2.head? = some (.respond 200) ∧
    (∀ pre t post,
      (handle_request users net req).2 = pre ++ .dial t :: post →
      Ev.respond 200 ∈ pre) ∧
    (∀ pre post,
      (handle_request users net req).2 = pre ++ .relay :: post →
      Ev.upgraded ∈ pre ∧ Ev.dial (connect_target req.uri) ∈ pre) ∧
    (∀ net2 : Net,
      (handle_request users net2 req).1 = (handle_request users net req).1) := by
  have key : ∀ n : Net, handle_request users n req =
      (⟨200, [], ""⟩,
        .respond 200 :: tunnel_task n (connect_target req.uri)) := by
    intro n
    rw [handle_request,
      health_cond_eq_false req (fun hg => absurd (hm.symm.trans hg) (by decide))]
    simp [ha, hm, handle_connect]
  refine ⟨by simp [key net], by simp [key net], ?_, ?_,
    fun net2 => by rw [key net, key net2]⟩
  · intro pre t post hp
    rw [key net] at hp
    cases pre with
    | nil => simp at hp
    | cons e pre' =>
      rw [List.cons_append, List.cons.injEq] at hp
      exact List.mem_cons.mpr (Or.inl hp.1)
  · intro pre post hp
    rw [key net] at hp
    have hp2 : Ev.respond 200 :: tunnel_task net (connect_target req.uri) =
        pre ++ Ev.relay :: post := hp
    have hmem : Ev.relay ∈
        Ev.respond 200 :: tunnel_task net (connect_target req.uri) := by
      rw [hp2]
      exact List.mem_append_right _ (List.mem_cons_self _ _)
    have hmem2 : Ev.relay ∈ tunnel_task net (connect_target req.uri) := by
      rcases List.mem_cons.mp hmem with h | h
      · exact absurd h (by decide)
      · exact h
    have hud : net.upgrade_ok = true ∧ net.dial_ok = true := by
      rw [tunnel_task] at hmem2
      cases hu : net.upgrade_ok
      · rw [hu] at hmem2; simp at hmem2
      · rw [hu] at hmem2
        cases hd : net.dial_ok
        · rw [hd] at hmem2; simp at hmem2
        · exact ⟨rfl, rfl⟩
    clear hp
    rw [tunnel_task, hud.1, hud.2] at hp2
    simp only [eq_self_iff_true, if_true] at hp2
    rcases pre with _ | ⟨a, _ | ⟨b, _ | ⟨c, _ | ⟨d, pre⟩⟩⟩⟩ <;> simp_all

/-- Witness for C7: a concrete authenticated CONNECT request. -/
theorem c7_connect_ordering_witness :
    (handle_request [("user", "pass")] ⟨.error "e", true, true⟩
        ⟨"CONNECT", "", "example.com:443", some "Basic dXNlcjpwYXNz"⟩).1 =
      ⟨200, [], ""⟩ :=
  (c7_connect_ordering [("user", "pass")] ⟨.error "e", true, true⟩
    ⟨"CONNECT", "", "example.com:443", some "Basic dXNlcjpwYXNz"⟩
    rfl (by decide)).1

/-- C8: for an authenticated non-CONNECT, non-health request whose outbound
attempt fails with error `e`, the handler returns status 500 with the
plain-text body `Proxy error: <e>` in the same request cycle; the handler
is a total function (the source's error type is `Infallible`), so the
failure cannot propagate as a crash. -/
theorem c8_http_failure_500 (users : List (String × String)) (net : Net)
    (req : Request) (e : String)
    (hh : req.method = "GET" → req.path ≠ "/health")
    (ha : is_valid_basic users req.proxy_authorization = true)
    (hm : req.method ≠ "CONNECT")
    (he : net.http_result = .error e) :
    handle_request users net req =
      (⟨500, [], "Proxy error: " ++ e⟩, [.http_dial, .respond 500]) := by
  rw [handle_request, health_cond_eq_false req hh]
  have hc : (req.method == "CONNECT") = false := by
    cases hb : (req.method == "CONNECT")
    · rfl
    · rw [beq_iff_eq] at hb
      exact absurd hb hm
  simp [ha, hc, handle_http, he]

/-- Witness for C8: an authenticated POST whose forwarding attempt fails
with `connection refused`. -/
theorem c8_http_failure_500_witness :
    handle_request [("user", "pass")]
        ⟨.error "connection refused", false, false⟩
        ⟨"POST", "/x", "http://x/", some "Basic dXNlcjpwYXNz"⟩ =
      (⟨500, [], "Proxy error: connection refused"⟩,
        [.http_dial, .respond 500]) :=
  c8_http_failure_500 [("user", "pass")]
    ⟨.error "connection refused", false, false⟩
    ⟨"POST", "/x", "http://x/", some "Basic dXNlcjpwYXNz"⟩
    "connection refused" (fun _ => by decide) (by decide) (by decide) rfl

/-- C9: the `PORT` environment override applies only when the value parses
as a `u16`; an unset variable or an unparsable value (empty, non-numeric,
out of range) silently leaves the configured port in force. -/
theorem c9_port_env_override (cfg : Nat) :
    effective_port none cfg = cfg ∧
    (∀ s, parse_u16 s = none → effective_port (some s) cfg = cfg) ∧
    (∀ s n, parse_u16 s = some n → effective_port (some s) cfg = n) ∧
    parse_u16 "" = none ∧
    parse_u16 "abc" = none ∧
    parse_u16 "70000" = none := by
  refine ⟨rfl, ?_, ?_, by decide, by decide, by decide⟩
  · intro s h
    simp [effective_port, h]
  · intro s n h
    simp [effective_port, h]

/-- Witness for C9: an unparsable and a parsable `PORT` value. -/
theorem c9_port_env_override_witness :
    effective_port (some "x") 3000 = 3000 ∧
    effective_port (some "8080") 3000 = 8080 :=
  ⟨(c9_port_env_override 3000).2.1 "x" (by decide),
   (c9_port_env_override 3000).2.2.1 "8080" 8080 (by decide)⟩

/-- C10: when the CONNECT target contains `://` but authority extraction
fails, the raw original string is the dial target verbatim, and the
default-port step cannot fire because the scheme separator already supplies
a colon. -/
theorem c10_connect_fallback_verbatim (parse : String → Option String)
    (s : String) (hscheme : contains_substr s "://" = true)
    (hfail : parse s = none) :
    connect_target_with parse s = s := by
  have hc : contains_char s ':' = true := contains_char_colon_of_scheme s hscheme
  simp [connect_target_with, hscheme, hfail, hc]

/-- Witness for C10: a failing extractor on a scheme-bearing target. -/
theorem c10_connect_fallback_verbatim_witness :
    connect_target_with (fun _ => none) "a://b" = "a://b" :=
  c10_connect_fallback_verbatim (fun _ => none) "a://b" (by decide) rfl

end Proxy
